import Mathlib

/-!
Verification of the Mergington High School activities API (`src/app.py`).

The program is a CRUD service over two relational tables: `activity` and
`participant`.  We embed the database as an explicit `Store` (lists of rows,
ordered by rowid as SQLite returns them), and each FastAPI handler as a pure
function from a store and its request arguments to the updated store together
with either the JSON-message response or the raised `HTTPException`.
-/

namespace SchoolApi

/-- A row of the `activity` table (`class Activity` in `app.py`):
primary-key `id`, `name`, `description`, `schedule`, `max_participants`. -/
structure Activity where
  id : Nat
  name : String
  description : String
  schedule : String
  max_participants : Int
deriving DecidableEq

/-- A row of the `participant` table (`class Participant` in `app.py`):
primary-key `id`, `email`, foreign-key `activity_id`. -/
structure Participant where
  id : Nat
  email : String
  activity_id : Nat
deriving DecidableEq

/-- The database state: the two tables, rows in rowid order. -/
structure Store where
  activities : List Activity
  participants : List Participant
deriving DecidableEq

/-- `fastapi.HTTPException` as raised by the handlers. -/
structure HTTPException where
  status_code : Nat
  detail : String
deriving DecidableEq

instance {ε α : Type} [DecidableEq ε] [DecidableEq α] : DecidableEq (Except ε α) := fun x y =>
  match x, y with
  | Except.ok a, Except.ok b =>
    if h : a = b then isTrue (by rw [h]) else isFalse (fun hc => h (Except.ok.inj hc))
  | Except.error a, Except.error b =>
    if h : a = b then isTrue (by rw [h]) else isFalse (fun hc => h (Except.error.inj hc))
  | Except.ok _, Except.error _ => isFalse (fun hc => Except.noConfusion hc)
  | Except.error _, Except.ok _ => isFalse (fun hc => Except.noConfusion hc)

/-- The rowid SQLite assigns to a freshly inserted row: one more than the
largest rowid in the table. -/
def nextId (ids : List Nat) : Nat := ids.foldl Nat.max 0 + 1

/-- `session.exec(select(Activity).where(Activity.name == activity_name)).first()`:
the first activity row whose name matches. -/
def activityNamed (s : Store) (activity_name : String) : Option Activity :=
  s.activities.find? (fun a => a.name == activity_name)

/-- `session.exec(select(Participant).where(Participant.activity_id == aid)).all()`:
all participant rows of one activity, in table order. -/
def participantsOf (s : Store) (aid : Nat) : List Participant :=
  s.participants.filter (fun p => p.activity_id == aid)

/-- `POST /activities/{activity_name}/signup` (`signup_for_activity` in
`app.py`): returns the store after the request and the response. -/
def signup_for_activity (s : Store) (activity_name email : String) :
    Store × Except HTTPException String :=
  match activityNamed s activity_name with
  | none => (s, Except.error ⟨404, "Activity not found"⟩)
  | some act =>
    let current := participantsOf s act.id
    if current.any (fun p => p.email == email) then
      (s, Except.error ⟨400, "Student is already signed up"⟩)
    else if (current.length : Int) ≥ act.max_participants then
      (s, Except.error ⟨400, "Activity is full"⟩)
    else
      let participant : Participant :=
        ⟨nextId (s.participants.map (fun p => p.id)), email, act.id⟩
      ({ s with participants := s.participants ++ [participant] },
       Except.ok ("Signed up " ++ email ++ " for " ++ activity_name))

/-- `DELETE /activities/{activity_name}/unregister` (`unregister_from_activity`
in `app.py`): returns the store after the request and the response. -/
def unregister_from_activity (s : Store) (activity_name email : String) :
    Store × Except HTTPException String :=
  match activityNamed s activity_name with
  | none => (s, Except.error ⟨404, "Activity not found"⟩)
  | some act =>
    match s.participants.find? (fun p => p.activity_id == act.id && p.email == email) with
    | none => (s, Except.error ⟨400, "Student is not signed up for this activity"⟩)
    | some participant =>
      ({ s with participants := s.participants.filter (fun q => q.id != participant.id) },
       Except.ok ("Unregistered " ++ email ++ " from " ++ activity_name))

/-- The value of one entry of the `GET /activities` response: description,
schedule, max_participants and the participants' emails. -/
structure ActivityInfo where
  description : String
  schedule : String
  max_participants : Int
  participants : List String
deriving DecidableEq

/-- The entry `get_activities` builds for one activity row. -/
def activityInfo (s : Store) (a : Activity) : ActivityInfo :=
  ⟨a.description, a.schedule, a.max_participants,
   (participantsOf s a.id).map (fun p => p.email)⟩

/-- `result[key] = value` on a Python dict (insertion order preserved;
assigning an existing key updates it in place). -/
def dictInsert (d : List (String × ActivityInfo)) (k : String) (v : ActivityInfo) :
    List (String × ActivityInfo) :=
  match d with
  | [] => [(k, v)]
  | (k', v') :: rest =>
    if k' == k then (k, v) :: rest else (k', v') :: dictInsert rest k v

/-- `GET /activities` (`get_activities` in `app.py`): a dict keyed by activity
name, one entry per activity row, later rows overwriting earlier ones. -/
def get_activities (s : Store) : List (String × ActivityInfo) :=
  s.activities.foldl (fun result act => dictInsert result act.name (activityInfo s act)) []

/-- One entry of the `initial` dataset in `seed_initial_data`. -/
structure SeedActivity where
  name : String
  description : String
  schedule : String
  max_participants : Int
  participants : List String

/-- The fixed `initial` seed dataset of `seed_initial_data`, in dict order. -/
def initialData : List SeedActivity :=
  [⟨"Chess Club",
    "Learn strategies and compete in chess tournaments",
    "Fridays, 3:30 PM - 5:00 PM", 12,
    ["michael@mergington.edu", "daniel@mergington.edu"]⟩,
   ⟨"Programming Class",
    "Learn programming fundamentals and build software projects",
    "Tuesdays and Thursdays, 3:30 PM - 4:30 PM", 20,
    ["emma@mergington.edu", "sophia@mergington.edu"]⟩,
   ⟨"Gym Class",
    "Physical education and sports activities",
    "Mondays, Wednesdays, Fridays, 2:00 PM - 3:00 PM", 30,
    ["john@mergington.edu", "olivia@mergington.edu"]⟩,
   ⟨"Soccer Team",
    "Join the school soccer team and compete in matches",
    "Tuesdays and Thursdays, 4:00 PM - 5:30 PM", 22,
    ["liam@mergington.edu", "noah@mergington.edu"]⟩,
   ⟨"Basketball Team",
    "Practice and play basketball with the school team",
    "Wednesdays and Fridays, 3:30 PM - 5:00 PM", 15,
    ["ava@mergington.edu", "mia@mergington.edu"]⟩,
   ⟨"Art Club",
    "Explore your creativity through painting and drawing",
    "Thursdays, 3:30 PM - 5:00 PM", 15,
    ["amelia@mergington.edu", "harper@mergington.edu"]⟩,
   ⟨"Drama Club",
    "Act, direct, and produce plays and performances",
    "Mondays and Wednesdays, 4:00 PM - 5:30 PM", 20,
    ["ella@mergington.edu", "scarlett@mergington.edu"]⟩,
   ⟨"Math Club",
    "Solve challenging problems and participate in math competitions",
    "Tuesdays, 3:30 PM - 4:30 PM", 10,
    ["james@mergington.edu", "benjamin@mergington.edu"]⟩,
   ⟨"Debate Team",
    "Develop public speaking and argumentation skills",
    "Fridays, 4:00 PM - 5:30 PM", 12,
    ["charlotte@mergington.edu", "henry@mergington.edu"]⟩]

/-- Insert one participant row (`session.add(Participant(...))`). -/
def addParticipant (s : Store) (aid : Nat) (email : String) : Store :=
  { s with participants :=
      s.participants ++ [⟨nextId (s.participants.map (fun p => p.id)), email, aid⟩] }

/-- One iteration of the seeding loop: insert the activity row, then its
participants. -/
def seedOne (s : Store) (d : SeedActivity) : Store :=
  let aid := nextId (s.activities.map (fun a => a.id))
  let s1 := { s with activities :=
      s.activities ++ [⟨aid, d.name, d.description, d.schedule, d.max_participants⟩] }
  d.participants.foldl (fun t e => addParticipant t aid e) s1

/-- `seed_initial_data` in `app.py`: a no-op when an activity row already
exists, otherwise inserts the fixed dataset. -/
def seed_initial_data (s : Store) : Store :=
  if s.activities.isEmpty then initialData.foldl seedOne s else s

/-- The store with both tables empty (a fresh `data.db`). -/
def emptyStore : Store := ⟨[], []⟩

/-- The store obtained by seeding the empty store: the nine activities of the
fixed dataset (rowids 1–9) and their eighteen participants (rowids 1–18). -/
def seededStore : Store :=
  ⟨[⟨1, "Chess Club", "Learn strategies and compete in chess tournaments",
     "Fridays, 3:30 PM - 5:00 PM", 12⟩,
    ⟨2, "Programming Class", "Learn programming fundamentals and build software projects",
     "Tuesdays and Thursdays, 3:30 PM - 4:30 PM", 20⟩,
    ⟨3, "Gym Class", "Physical education and sports activities",
     "Mondays, Wednesdays, Fridays, 2:00 PM - 3:00 PM", 30⟩,
    ⟨4, "Soccer Team", "Join the school soccer team and compete in matches",
     "Tuesdays and Thursdays, 4:00 PM - 5:30 PM", 22⟩,
    ⟨5, "Basketball Team", "Practice and play basketball with the school team",
     "Wednesdays and Fridays, 3:30 PM - 5:00 PM", 15⟩,
    ⟨6, "Art Club", "Explore your creativity through painting and drawing",
     "Thursdays, 3:30 PM - 5:00 PM", 15⟩,
    ⟨7, "Drama Club", "Act, direct, and produce plays and performances",
     "Mondays and Wednesdays, 4:00 PM - 5:30 PM", 20⟩,
    ⟨8, "Math Club", "Solve challenging problems and participate in math competitions",
     "Tuesdays, 3:30 PM - 4:30 PM", 10⟩,
    ⟨9, "Debate Team", "Develop public speaking and argumentation skills",
     "Fridays, 4:00 PM - 5:30 PM", 12⟩],
   [⟨1, "michael@mergington.edu", 1⟩, ⟨2, "daniel@mergington.edu", 1⟩,
    ⟨3, "emma@mergington.edu", 2⟩, ⟨4, "sophia@mergington.edu", 2⟩,
    ⟨5, "john@mergington.edu", 3⟩, ⟨6, "olivia@mergington.edu", 3⟩,
    ⟨7, "liam@mergington.edu", 4⟩, ⟨8, "noah@mergington.edu", 4⟩,
    ⟨9, "ava@mergington.edu", 5⟩, ⟨10, "mia@mergington.edu", 5⟩,
    ⟨11, "amelia@mergington.edu", 6⟩, ⟨12, "harper@mergington.edu", 6⟩,
    ⟨13, "ella@mergington.edu", 7⟩, ⟨14, "scarlett@mergington.edu", 7⟩,
    ⟨15, "james@mergington.edu", 8⟩, ⟨16, "benjamin@mergington.edu", 8⟩,
    ⟨17, "charlotte@mergington.edu", 9⟩, ⟨18, "henry@mergington.edu", 9⟩]⟩

/-! ## Invariants of the relational store

`id` columns are primary keys and `Participant.activity_id` is a foreign key
into `activity`; these well-formedness conditions are guaranteed by the store
layer, and the spec's capacity and uniqueness invariants are stated over them.
-/

/-- Primary-key property of the `activity` table. -/
def UniqueActivityIds (s : Store) : Prop :=
  s.activities.Pairwise (fun a b => a.id ≠ b.id)

/-- Primary-key property of the `participant` table. -/
def UniqueParticipantIds (s : Store) : Prop :=
  s.participants.Pairwise (fun p q => p.id ≠ q.id)

/-- Foreign-key property: every participant row references an activity row. -/
def ValidRefs (s : Store) : Prop :=
  ∀ p ∈ s.participants, ∃ a ∈ s.activities, a.id = p.activity_id

/-- Spec §3 invariant: no activity ever holds more than `max_participants`. -/
def WithinCapacity (s : Store) : Prop :=
  ∀ a ∈ s.activities, ((participantsOf s a.id).length : Int) ≤ a.max_participants

/-- Spec §3 invariant: `(activity_id, email)` pairs are unique. -/
def UniquePairs (s : Store) : Prop :=
  s.participants.Pairwise (fun p q => ¬(p.activity_id = q.activity_id ∧ p.email = q.email))

instance (s : Store) : Decidable (UniqueActivityIds s) := by
  unfold UniqueActivityIds; infer_instance

instance (s : Store) : Decidable (UniqueParticipantIds s) := by
  unfold UniqueParticipantIds; infer_instance

instance (s : Store) : Decidable (ValidRefs s) := by
  unfold ValidRefs; infer_instance

instance (s : Store) : Decidable (WithinCapacity s) := by
  unfold WithinCapacity; infer_instance

instance (s : Store) : Decidable (UniquePairs s) := by
  unfold UniquePairs; infer_instance

/-! ## Case-analysis lemmas for the two mutating handlers -/

theorem signup_eq_notFound (s : Store) (an em : String)
    (h : activityNamed s an = none) :
    signup_for_activity s an em = (s, Except.error ⟨404, "Activity not found"⟩) := by
  simp [signup_for_activity, h]

theorem signup_eq_already (s : Store) (an em : String) (act : Activity)
    (h : activityNamed s an = some act)
    (h2 : (participantsOf s act.id).any (fun p => p.email == em) = true) :
    signup_for_activity s an em = (s, Except.error ⟨400, "Student is already signed up"⟩) := by
  simp [signup_for_activity, h, h2]

theorem signup_eq_full (s : Store) (an em : String) (act : Activity)
    (h : activityNamed s an = some act)
    (h2 : (participantsOf s act.id).any (fun p => p.email == em) = false)
    (h3 : ((participantsOf s act.id).length : Int) ≥ act.max_participants) :
    signup_for_activity s an em = (s, Except.error ⟨400, "Activity is full"⟩) := by
  simp [signup_for_activity, h, h2, h3]

theorem signup_eq_ok (s : Store) (an em : String) (act : Activity)
    (h : activityNamed s an = some act)
    (h2 : (participantsOf s act.id).any (fun p => p.email == em) = false)
    (h3 : ((participantsOf s act.id).length : Int) < act.max_participants) :
    signup_for_activity s an em =
      ({ s with participants := s.participants ++
          [⟨nextId (s.participants.map (fun p => p.id)), em, act.id⟩] },
       Except.ok ("Signed up " ++ em ++ " for " ++ an)) := by
  simp [signup_for_activity, h, h2, not_le.mpr h3]

theorem unregister_eq_notFound (s : Store) (an em : String)
    (h : activityNamed s an = none) :
    unregister_from_activity s an em = (s, Except.error ⟨404, "Activity not found"⟩) := by
  simp [unregister_from_activity, h]

theorem unregister_eq_notSignedUp (s : Store) (an em : String) (act : Activity)
    (h : activityNamed s an = some act)
    (h2 : s.participants.find? (fun p => p.activity_id == act.id && p.email == em) = none) :
    unregister_from_activity s an em =
      (s, Except.error ⟨400, "Student is not signed up for this activity"⟩) := by
  simp [unregister_from_activity, h, h2]

theorem unregister_eq_ok (s : Store) (an em : String) (act : Activity) (p : Participant)
    (h : activityNamed s an = some act)
    (h2 : s.participants.find? (fun q => q.activity_id == act.id && q.email == em) = some p) :
    unregister_from_activity s an em =
      ({ s with participants := s.participants.filter (fun q => q.id != p.id) },
       Except.ok ("Unregistered " ++ em ++ " from " ++ an)) := by
  simp [unregister_from_activity, h, h2]

/-- Complete case analysis of one `signup_for_activity` call: either it fails
and returns the store untouched, or the guard conditions held and it appends
exactly the one new row. -/
theorem signup_result (s : Store) (an em : String) (s' : Store)
    (r : Except HTTPException String)
    (h : signup_for_activity s an em = (s', r)) :
    (s' = s ∧ ∃ e, r = Except.error e) ∨
    (∃ act, activityNamed s an = some act ∧
      (participantsOf s act.id).any (fun p => p.email == em) = false ∧
      ((participantsOf s act.id).length : Int) < act.max_participants ∧
      s' = { s with participants := s.participants ++
        [⟨nextId (s.participants.map (fun p => p.id)), em, act.id⟩] } ∧
      r = Except.ok ("Signed up " ++ em ++ " for " ++ an)) := by
  rcases hfind : activityNamed s an with _ | act
  · rw [signup_eq_notFound s an em hfind] at h
    injection h with h1 h2
    exact Or.inl ⟨h1.symm, _, h2.symm⟩
  · by_cases hany : (participantsOf s act.id).any (fun p => p.email == em) = true
    · rw [signup_eq_already s an em act hfind hany] at h
      injection h with h1 h2
      exact Or.inl ⟨h1.symm, _, h2.symm⟩
    · have hany' : (participantsOf s act.id).any (fun p => p.email == em) = false :=
        Bool.not_eq_true _ ▸ hany
      by_cases hfull : ((participantsOf s act.id).length : Int) ≥ act.max_participants
      · rw [signup_eq_full s an em act hfind hany' hfull] at h
        injection h with h1 h2
        exact Or.inl ⟨h1.symm, _, h2.symm⟩
      · have hlt := lt_of_not_ge hfull
        rw [signup_eq_ok s an em act hfind hany' hlt] at h
        injection h with h1 h2
        exact Or.inr ⟨act, rfl, hany', hlt, h1.symm, h2.symm⟩

/-- Complete case analysis of one `unregister_from_activity` call: either it
fails and returns the store untouched, or a matching row was found and it is
removed. -/
theorem unregister_result (s : Store) (an em : String) (s' : Store)
    (r : Except HTTPException String)
    (h : unregister_from_activity s an em = (s', r)) :
    (s' = s ∧ ∃ e, r = Except.error e) ∨
    (∃ act p, activityNamed s an = some act ∧
      s.participants.find? (fun q => q.activity_id == act.id && q.email == em) = some p ∧
      s' = { s with participants := s.participants.filter (fun q => q.id != p.id) } ∧
      r = Except.ok ("Unregistered " ++ em ++ " from " ++ an)) := by
  rcases hfind : activityNamed s an with _ | act
  · rw [unregister_eq_notFound s an em hfind] at h
    injection h with h1 h2
    exact Or.inl ⟨h1.symm, _, h2.symm⟩
  · rcases hp : s.participants.find? (fun q => q.activity_id == act.id && q.email == em)
      with _ | p
    · rw [unregister_eq_notSignedUp s an em act hfind hp] at h
      injection h with h1 h2
      exact Or.inl ⟨h1.symm, _, h2.symm⟩
    · rw [unregister_eq_ok s an em act p hfind hp] at h
      injection h with h1 h2
      exact Or.inr ⟨act, p, rfl, hp, h1.symm, h2.symm⟩

/-- `email` is registered for the activity with rowid `aid`: some participant
row carries that pair. -/
def emailRegistered (s : Store) (aid : Nat) (em : String) : Prop :=
  ∃ p ∈ s.participants, p.activity_id = aid ∧ p.email = em

theorem any_email_iff (s : Store) (aid : Nat) (em : String) :
    (participantsOf s aid).any (fun p => p.email == em) = true ↔ emailRegistered s aid em := by
  simp only [participantsOf, emailRegistered, List.any_eq_true, List.mem_filter,
    beq_iff_eq]
  constructor
  · rintro ⟨p, ⟨hmem, haid⟩, hem⟩
    exact ⟨p, hmem, haid, hem⟩
  · rintro ⟨p, hmem, haid, hem⟩
    exact ⟨p, ⟨hmem, haid⟩, hem⟩

theorem any_email_eq_false (s : Store) (aid : Nat) (em : String)
    (h : ¬emailRegistered s aid em) :
    (participantsOf s aid).any (fun p => p.email == em) = false := by
  simpa using mt (any_email_iff s aid em).mp h

theorem find_pair_eq_none_iff (s : Store) (aid : Nat) (em : String) :
    s.participants.find? (fun q => q.activity_id == aid && q.email == em) = none ↔
      ¬emailRegistered s aid em := by
  simp only [List.find?_eq_none, emailRegistered, Bool.and_eq_true, beq_iff_eq,
    not_exists, not_and]

instance (s : Store) (aid : Nat) (em : String) : Decidable (emailRegistered s aid em) :=
  inferInstanceAs (Decidable (∃ p ∈ s.participants, p.activity_id = aid ∧ p.email = em))

/-- The test fixture used for the examples: Chess Club as seeded. -/
def chessClub : Activity :=
  ⟨1, "Chess Club", "Learn strategies and compete in chess tournaments",
   "Fridays, 3:30 PM - 5:00 PM", 12⟩

/-- C1: signup fails with 404 when the activity name does not match, with 400
when the email is already registered for the activity, with 400 when the
participant count has reached `max_participants`, and otherwise inserts
exactly one participant row for that activity and acknowledges success. -/
theorem signup_contract (s : Store) (an em : String) :
    (activityNamed s an = none →
      signup_for_activity s an em = (s, Except.error ⟨404, "Activity not found"⟩))
    ∧ (∀ act, activityNamed s an = some act →
        (emailRegistered s act.id em →
          signup_for_activity s an em =
            (s, Except.error ⟨400, "Student is already signed up"⟩))
        ∧ (¬emailRegistered s act.id em →
            ((participantsOf s act.id).length : Int) ≥ act.max_participants →
            signup_for_activity s an em = (s, Except.error ⟨400, "Activity is full"⟩))
        ∧ (¬emailRegistered s act.id em →
            ((participantsOf s act.id).length : Int) < act.max_participants →
            signup_for_activity s an em =
              ({ s with participants := s.participants ++
                  [⟨nextId (s.participants.map (fun p => p.id)), em, act.id⟩] },
               Except.ok ("Signed up " ++ em ++ " for " ++ an)))) := by
  refine ⟨signup_eq_notFound s an em, fun act hact => ⟨?_, ?_, ?_⟩⟩
  · intro hreg
    exact signup_eq_already s an em act hact ((any_email_iff s act.id em).mpr hreg)
  · intro hreg hfull
    exact signup_eq_full s an em act hact (any_email_eq_false s act.id em hreg) hfull
  · intro hreg hlt
    exact signup_eq_ok s an em act hact (any_email_eq_false s act.id em hreg) hlt

/-- C1 witness: on the seeded store, an unknown activity gives 404, a duplicate
email gives 400, and a fresh email is inserted as row 19 of Chess Club. -/
theorem signup_contract_witness :
    signup_for_activity seededStore ("Garden Club") ("a@mergington.edu")
        = (seededStore, Except.error ⟨404, "Activity not found"⟩)
    ∧ signup_for_activity seededStore ("Chess Club") ("michael@mergington.edu")
        = (seededStore, Except.error ⟨400, "Student is already signed up"⟩)
    ∧ signup_for_activity seededStore ("Chess Club") ("newstudent@mergington.edu")
        = ({ seededStore with participants := seededStore.participants ++
              [⟨19, "newstudent@mergington.edu", 1⟩] },
           Except.ok ("Signed up " ++ "newstudent@mergington.edu" ++ " for " ++ "Chess Club")) := by
  refine ⟨?_, ?_, ?_⟩
  · exact (signup_contract seededStore ("Garden Club") ("a@mergington.edu")).1 (by decide)
  · exact ((signup_contract seededStore ("Chess Club")
      ("michael@mergington.edu")).2 chessClub (by decide)).1 (by decide)
  · exact ((signup_contract seededStore ("Chess Club")
      ("newstudent@mergington.edu")).2 chessClub (by decide)).2.2 (by decide) (by decide)

/-- C2: unregister fails with 404 when the activity name does not match, with
400 (a client error, not 404) when no participant row matches the pair, and
otherwise deletes the matching row and acknowledges success. -/
theorem unregister_contract (s : Store) (an em : String) :
    (activityNamed s an = none →
      unregister_from_activity s an em = (s, Except.error ⟨404, "Activity not found"⟩))
    ∧ (∀ act, activityNamed s an = some act →
        (¬emailRegistered s act.id em →
          unregister_from_activity s an em =
            (s, Except.error ⟨400, "Student is not signed up for this activity"⟩))
        ∧ (emailRegistered s act.id em →
            ∃ p, p ∈ s.participants ∧ p.activity_id = act.id ∧ p.email = em ∧
              unregister_from_activity s an em =
                ({ s with participants := s.participants.filter (fun q => q.id != p.id) },
                 Except.ok ("Unregistered " ++ em ++ " from " ++ an)))) := by
  refine ⟨unregister_eq_notFound s an em, fun act hact => ⟨?_, ?_⟩⟩
  · intro hreg
    exact unregister_eq_notSignedUp s an em act hact
      ((find_pair_eq_none_iff s act.id em).mpr hreg)
  · intro hreg
    rcases hp : s.participants.find? (fun q => q.activity_id == act.id && q.email == em)
      with _ | p
    · exact absurd ((find_pair_eq_none_iff s act.id em).mp hp) (not_not.mpr hreg)
    · have hmem := List.mem_of_find?_eq_some hp
      have hprop := List.find?_some hp
      simp only [Bool.and_eq_true, beq_iff_eq] at hprop
      exact ⟨p, hmem, hprop.1, hprop.2, unregister_eq_ok s an em act p hact hp⟩

/-- C2 witness: on the seeded store, an unknown activity gives 404, a
non-registered email gives 400, and a registered email's row is deleted. -/
theorem unregister_contract_witness :
    unregister_from_activity seededStore ("Garden Club") ("a@mergington.edu")
        = (seededStore, Except.error ⟨404, "Activity not found"⟩)
    ∧ unregister_from_activity seededStore ("Chess Club") ("nobody@mergington.edu")
        = (seededStore, Except.error ⟨400, "Student is not signed up for this activity"⟩)
    ∧ (∃ p, p ∈ seededStore.participants ∧ p.activity_id = chessClub.id
        ∧ p.email = "daniel@mergington.edu" ∧
        unregister_from_activity seededStore ("Chess Club") ("daniel@mergington.edu")
          = ({ seededStore with participants :=
                seededStore.participants.filter (fun q => q.id != p.id) },
             Except.ok ("Unregistered " ++ "daniel@mergington.edu" ++ " from " ++ "Chess Club"))) := by
  refine ⟨?_, ?_, ?_⟩
  · exact (unregister_contract seededStore ("Garden Club") ("a@mergington.edu")).1 (by decide)
  · exact ((unregister_contract seededStore ("Chess Club")
      ("nobody@mergington.edu")).2 chessClub (by decide)).1 (by decide)
  · exact ((unregister_contract seededStore ("Chess Club")
      ("daniel@mergington.edu")).2 chessClub (by decide)).2 (by decide)

/-! ## Helper lemmas about modified stores -/

theorem activityNamed_set_participants (s : Store) (l : List Participant) (an : String) :
    activityNamed { s with participants := l } an = activityNamed s an := rfl

theorem participantsOf_append_row (s : Store) (row : Participant) (aid : Nat) :
    participantsOf { s with participants := s.participants ++ [row] } aid =
      participantsOf s aid ++ if row.activity_id == aid then [row] else [] := by
  simp only [participantsOf, List.filter_append, List.filter_cons, List.filter_nil]

theorem find?_decomp {α : Type} (p : α → Bool) (l : List α) (a : α)
    (h : l.find? p = some a) :
    ∃ pre post, l = pre ++ a :: post ∧ ∀ b ∈ pre, p b = false := by
  induction l with
  | nil => simp [List.find?] at h
  | cons x xs ih =>
    by_cases hx : p x = true
    · rw [List.find?_cons_of_pos xs hx] at h
      have hxa : x = a := by injection h
      subst hxa
      exact ⟨[], xs, rfl, by simp⟩
    · rw [List.find?_cons_of_neg xs hx] at h
      obtain ⟨pre, post, hd, hpre⟩ := ih h
      refine ⟨x :: pre, post, by rw [hd]; rfl, ?_⟩
      intro b hb
      rcases List.mem_cons.mp hb with rfl | hb'
      · exact Bool.not_eq_true _ ▸ hx
      · exact hpre b hb'

theorem filter_ne_id_of_unique (l : List Participant) (p : Participant)
    (hu : l.Pairwise (fun a b => a.id ≠ b.id)) (pre post : List Participant)
    (hd : l = pre ++ p :: post) :
    l.filter (fun q => q.id != p.id) = pre ++ post := by
  subst hd
  rw [List.pairwise_append] at hu
  obtain ⟨hpre, hcons, hcross⟩ := hu
  rw [List.pairwise_cons] at hcons
  have h1 : pre.filter (fun q => q.id != p.id) = pre := by
    refine List.filter_eq_self.mpr (fun q hq => ?_)
    have hne := hcross q hq p (List.mem_cons_self p post)
    simpa using hne
  have h2 : (p :: post).filter (fun q => q.id != p.id) = post := by
    rw [List.filter_cons]
    have hself : (p.id != p.id) = false := by simp
    rw [if_neg (by simp)]
    refine List.filter_eq_self.mpr (fun q hq => ?_)
    have hne := hcons.1 q hq
    simpa using hne.symm
  rw [List.filter_append, h1, h2]

/-- C5: a failing signup or unregister leaves the store untouched, and after a
successful signup the identical call fails with 400 "already signed up" and
again leaves the store untouched. -/
theorem error_atomicity (s : Store) (an em : String) :
    (∀ e, (signup_for_activity s an em).2 = Except.error e →
        (signup_for_activity s an em).1 = s)
    ∧ (∀ e, (unregister_from_activity s an em).2 = Except.error e →
        (unregister_from_activity s an em).1 = s)
    ∧ (∀ s' msg, signup_for_activity s an em = (s', Except.ok msg) →
        signup_for_activity s' an em =
          (s', Except.error ⟨400, "Student is already signed up"⟩)) := by
  refine ⟨?_, ?_, ?_⟩
  · intro e he
    rcases signup_result s an em (signup_for_activity s an em).1
        (signup_for_activity s an em).2 rfl with ⟨h1, _⟩ | ⟨act, _, _, _, _, hr⟩
    · exact h1
    · rw [he] at hr
      exact Except.noConfusion hr
  · intro e he
    rcases unregister_result s an em (unregister_from_activity s an em).1
        (unregister_from_activity s an em).2 rfl with ⟨h1, _⟩ | ⟨act, p, _, _, _, hr⟩
    · exact h1
    · rw [he] at hr
      exact Except.noConfusion hr
  · intro s' msg h
    rcases signup_result s an em s' (Except.ok msg) h
      with ⟨_, e, hr⟩ | ⟨act, hact, hany, hlt, hs', hr⟩
    · exact Except.noConfusion hr
    · subst hs'
      have hact' : activityNamed
          { s with participants := s.participants ++
              [⟨nextId (s.participants.map (fun p => p.id)), em, act.id⟩] } an = some act := hact
      refine signup_eq_already _ an em act hact' ?_
      rw [any_email_iff]
      exact ⟨⟨nextId (s.participants.map (fun p => p.id)), em, act.id⟩,
        List.mem_append_right _ (List.mem_singleton.mpr rfl), rfl, rfl⟩

/-- C5 witness: a 404 signup, a 400 unregister and a duplicate second signup
each leave the seeded store as it was. -/
theorem error_atomicity_witness :
    (signup_for_activity seededStore ("Garden Club") ("a@mergington.edu")).1 = seededStore
    ∧ (unregister_from_activity seededStore ("Chess Club") ("nobody@mergington.edu")).1
        = seededStore
    ∧ signup_for_activity
        { seededStore with participants := seededStore.participants ++
            [⟨19, "newstudent@mergington.edu", 1⟩] }
        ("Chess Club") ("newstudent@mergington.edu")
      = ({ seededStore with participants := seededStore.participants ++
            [⟨19, "newstudent@mergington.edu", 1⟩] },
         Except.error ⟨400, "Student is already signed up"⟩) := by
  refine ⟨?_, ?_, ?_⟩
  · exact (error_atomicity seededStore ("Garden Club") ("a@mergington.edu")).1
      ⟨404, "Activity not found"⟩ (by decide)
  · exact (error_atomicity seededStore ("Chess Club") ("nobody@mergington.edu")).2.1
      ⟨400, "Student is not signed up for this activity"⟩ (by decide)
  · exact (error_atomicity seededStore ("Chess Club") ("newstudent@mergington.edu")).2.2
      ({ seededStore with participants := seededStore.participants ++
          [⟨19, "newstudent@mergington.edu", 1⟩] })
      ("Signed up " ++ "newstudent@mergington.edu" ++ " for " ++ "Chess Club") (by decide)

/-- C8: neither handler ever creates, deletes or modifies an activity row; a
signup changes the participant table only by appending one row for the named
activity, and an unregister only by removing one row of the named activity. -/
theorem api_frame_condition (s : Store) (an em : String) :
    (∀ s' r, signup_for_activity s an em = (s', r) → s'.activities = s.activities)
    ∧ (∀ s' r, unregister_from_activity s an em = (s', r) → s'.activities = s.activities)
    ∧ (∀ s' r, signup_for_activity s an em = (s', r) →
        s'.participants = s.participants ∨
        ∃ act pid, activityNamed s an = some act ∧
          s'.participants = s.participants ++ [⟨pid, em, act.id⟩])
    ∧ (UniqueParticipantIds s →
        ∀ s' r, unregister_from_activity s an em = (s', r) →
        s'.participants = s.participants ∨
        ∃ act p pre post, activityNamed s an = some act ∧
          p.activity_id = act.id ∧ p.email = em ∧
          s.participants = pre ++ p :: post ∧
          s'.participants = pre ++ post) := by
  refine ⟨?_, ?_, ?_, ?_⟩
  · intro s' r h
    rcases signup_result s an em s' r h with ⟨hs, _⟩ | ⟨act, _, _, _, hs, _⟩ <;> rw [hs]
  · intro s' r h
    rcases unregister_result s an em s' r h with ⟨hs, _⟩ | ⟨act, p, _, _, hs, _⟩ <;> rw [hs]
  · intro s' r h
    rcases signup_result s an em s' r h with ⟨hs, _⟩ | ⟨act, hact, _, _, hs, _⟩
    · exact Or.inl (by rw [hs])
    · exact Or.inr ⟨act, nextId (s.participants.map (fun p => p.id)), hact, by rw [hs]⟩
  · intro hu s' r h
    rcases unregister_result s an em s' r h with ⟨hs, _⟩ | ⟨act, p, hact, hp, hs, _⟩
    · exact Or.inl (by rw [hs])
    · obtain ⟨pre, post, hd, _⟩ := find?_decomp _ s.participants p hp
      have hprop := List.find?_some hp
      simp only [Bool.and_eq_true, beq_iff_eq] at hprop
      refine Or.inr ⟨act, p, pre, post, hact, hprop.1, hprop.2, hd, ?_⟩
      rw [hs]
      exact filter_ne_id_of_unique s.participants p hu pre post hd

/-- C8 witness: on the seeded store a successful signup keeps the activity
table, and a successful unregister removes exactly one Chess Club row. -/
theorem api_frame_condition_witness :
    UniqueParticipantIds seededStore
    ∧ (signup_for_activity seededStore ("Chess Club") ("newstudent@mergington.edu")).1.activities
        = seededStore.activities
    ∧ ((unregister_from_activity seededStore ("Chess Club")
          ("daniel@mergington.edu")).1.participants = seededStore.participants
        ∨ ∃ act p pre post, activityNamed seededStore ("Chess Club") = some act ∧
            p.activity_id = act.id ∧ p.email = "daniel@mergington.edu" ∧
            seededStore.participants = pre ++ p :: post ∧
            (unregister_from_activity seededStore ("Chess Club")
              ("daniel@mergington.edu")).1.participants = pre ++ post) := by
  refine ⟨by decide, ?_, ?_⟩
  · exact (api_frame_condition seededStore ("Chess Club")
      ("newstudent@mergington.edu")).1 _ _ rfl
  · exact (api_frame_condition seededStore ("Chess Club")
      ("daniel@mergington.edu")).2.2.2 (by decide) _ _ rfl

/-! ## Invariant preservation -/

theorem id_inj_of_unique (l : List Activity) (hu : l.Pairwise (fun a b => a.id ≠ b.id))
    (a b : Activity) (ha : a ∈ l) (hb : b ∈ l) (h : a.id = b.id) : a = b := by
  by_contra hne
  exact List.Pairwise.forall (fun x y hxy => (hxy ∘ Eq.symm)) hu ha hb hne h

theorem participantsOf_filter (s : Store) (f : Participant → Bool) (aid : Nat) :
    participantsOf { s with participants := s.participants.filter f } aid =
      (participantsOf s aid).filter f := by
  simp only [participantsOf, List.filter_filter]
  congr 1
  funext q
  exact Bool.and_comm _ _

theorem act_mem_of_activityNamed (s : Store) (an : String) (act : Activity)
    (h : activityNamed s an = some act) : act ∈ s.activities :=
  List.mem_of_find?_eq_some h

theorem participants_nil_of_validRefs (s : Store) (hv : ValidRefs s)
    (h : s.activities = []) : s.participants = [] := by
  rcases hs : s.participants with _ | ⟨p, rest⟩
  · rfl
  · obtain ⟨a, ha, _⟩ := hv p (by rw [hs]; exact List.mem_cons_self p rest)
    rw [h] at ha
    exact absurd ha (List.not_mem_nil a)

theorem store_eq_empty (s : Store) (h1 : s.activities = []) (h2 : s.participants = []) :
    s = emptyStore := by
  cases s
  simp_all [emptyStore]

theorem seed_emptyStore : seed_initial_data emptyStore = seededStore := by decide

theorem seed_no_op (s : Store) (h : s.activities ≠ []) : seed_initial_data s = s := by
  simp [seed_initial_data, h]

theorem not_pair_of_any_false (s : Store) (aid : Nat) (em : String)
    (h : (participantsOf s aid).any (fun p => p.email == em) = false)
    (p : Participant) (hp : p ∈ s.participants) (haid : p.activity_id = aid) :
    p.email ≠ em := by
  intro hem
  have hreg : emailRegistered s aid em := ⟨p, hp, haid, hem⟩
  rw [← any_email_iff, h] at hreg
  exact Bool.noConfusion hreg

/-- A store whose only activity is at capacity, for exercising the full case. -/
def fullChessStore : Store :=
  ⟨[⟨1, "Chess Club", "Learn strategies and compete in chess tournaments",
     "Fridays, 3:30 PM - 5:00 PM", 2⟩],
   [⟨1, "a@mergington.edu", 1⟩, ⟨2, "b@mergington.edu", 1⟩]⟩

/-- C3: no operation ever pushes an activity's participant count above its
`max_participants`, and a signup on a full activity is answered with 400. -/
theorem capacity_invariant (s : Store) (an em : String) :
    (∀ s' r, UniqueActivityIds s → WithinCapacity s →
        signup_for_activity s an em = (s', r) → WithinCapacity s')
    ∧ (∀ s' r, WithinCapacity s →
        unregister_from_activity s an em = (s', r) → WithinCapacity s')
    ∧ (ValidRefs s → WithinCapacity s → WithinCapacity (seed_initial_data s))
    ∧ (∀ act, activityNamed s an = some act →
        ((participantsOf s act.id).length : Int) ≥ act.max_participants →
        ∃ d, signup_for_activity s an em = (s, Except.error ⟨400, d⟩)) := by
  refine ⟨?_, ?_, ?_, ?_⟩
  · intro s' r hu hw h
    rcases signup_result s an em s' r h with ⟨hs, _⟩ | ⟨act, hact, hany, hlt, hs, _⟩
    · rw [hs]; exact hw
    · subst hs
      intro a ha
      rw [participantsOf_append_row]
      by_cases hid : act.id = a.id
      · have hacta : act = a :=
          id_inj_of_unique s.activities hu act a (act_mem_of_activityNamed s an act hact) ha hid
        subst hacta
        simp only [beq_self_eq_true, if_true, List.length_append, List.length_cons,
          List.length_nil]
        push_cast
        omega
      · have : ((⟨nextId (s.participants.map (fun p => p.id)), em, act.id⟩ :
            Participant).activity_id == a.id) = false := by
          simpa using hid
        rw [this]
        simpa using hw a ha
  · intro s' r hw h
    rcases unregister_result s an em s' r h with ⟨hs, _⟩ | ⟨act, p, hact, hp, hs, _⟩
    · rw [hs]; exact hw
    · subst hs
      intro a ha
      rw [participantsOf_filter]
      calc ((((participantsOf s a.id).filter (fun q => q.id != p.id)).length : Int))
          ≤ ((participantsOf s a.id).length : Int) := by
            exact_mod_cast List.length_filter_le _ _
        _ ≤ a.max_participants := hw a ha
  · intro hv hw
    by_cases he : s.activities = []
    · rw [store_eq_empty s he (participants_nil_of_validRefs s hv he), seed_emptyStore]
      decide
    · rw [seed_no_op s he]
      exact hw
  · intro act hact hfull
    by_cases hreg : emailRegistered s act.id em
    · exact ⟨"Student is already signed up",
        signup_eq_already s an em act hact ((any_email_iff s act.id em).mpr hreg)⟩
    · exact ⟨"Activity is full",
        signup_eq_full s an em act hact (any_email_eq_false s act.id em hreg) hfull⟩

/-- C3 witness: preservation across a successful signup, a successful
unregister and seeding, and the 400 answer on a full activity. -/
theorem capacity_invariant_witness :
    WithinCapacity (signup_for_activity seededStore ("Chess Club")
      ("newstudent@mergington.edu")).1
    ∧ WithinCapacity (unregister_from_activity seededStore ("Chess Club")
      ("daniel@mergington.edu")).1
    ∧ WithinCapacity (seed_initial_data emptyStore)
    ∧ ∃ d, signup_for_activity fullChessStore ("Chess Club") ("c@mergington.edu")
        = (fullChessStore, Except.error ⟨400, d⟩) := by
  refine ⟨?_, ?_, ?_, ?_⟩
  · exact (capacity_invariant seededStore ("Chess Club")
      ("newstudent@mergington.edu")).1 _ _ (by decide) (by decide) rfl
  · exact (capacity_invariant seededStore ("Chess Club")
      ("daniel@mergington.edu")).2.1 _ _ (by decide) rfl
  · exact (capacity_invariant emptyStore ("x") ("y")).2.2.1 (by decide) (by decide)
  · exact (capacity_invariant fullChessStore ("Chess Club")
      ("c@mergington.edu")).2.2.2
      ⟨1, "Chess Club", "Learn strategies and compete in chess tournaments",
       "Fridays, 3:30 PM - 5:00 PM", 2⟩ (by decide) (by decide)

/-- C4: `(activity_id, email)` uniqueness is preserved by every operation, and
a successful signup leaves the email exactly once in that activity's list. -/
theorem unique_pairs_invariant (s : Store) (an em : String) :
    (∀ s' r, UniquePairs s → signup_for_activity s an em = (s', r) → UniquePairs s')
    ∧ (∀ s' r, UniquePairs s → unregister_from_activity s an em = (s', r) → UniquePairs s')
    ∧ (ValidRefs s → UniquePairs s → UniquePairs (seed_initial_data s))
    ∧ (∀ s' msg act, activityNamed s an = some act →
        signup_for_activity s an em = (s', Except.ok msg) →
        ((participantsOf s' act.id).map (fun p => p.email)).count em = 1) := by
  refine ⟨?_, ?_, ?_, ?_⟩
  · intro s' r hu h
    rcases signup_result s an em s' r h with ⟨hs, _⟩ | ⟨act, hact, hany, hlt, hs, _⟩
    · rw [hs]; exact hu
    · subst hs
      unfold UniquePairs at hu ⊢
      simp only [List.pairwise_append, List.pairwise_cons, List.mem_singleton]
      refine ⟨hu, by simp, ?_⟩
      rintro p hp q rfl
      rintro ⟨haid, hem⟩
      exact not_pair_of_any_false s act.id em hany p hp haid hem
  · intro s' r hu h
    rcases unregister_result s an em s' r h with ⟨hs, _⟩ | ⟨act, p, hact, hp, hs, _⟩
    · rw [hs]; exact hu
    · subst hs
      exact List.Pairwise.sublist (List.filter_sublist _) hu
  · intro hv hu
    by_cases he : s.activities = []
    · rw [store_eq_empty s he (participants_nil_of_validRefs s hv he), seed_emptyStore]
      decide
    · rw [seed_no_op s he]
      exact hu
  · intro s' msg act hact h
    rcases signup_result s an em s' (Except.ok msg) h
      with ⟨_, e, hr⟩ | ⟨act', hact', hany, hlt, hs, _⟩
    · exact Except.noConfusion hr
    · have hacts : act' = act := by
        rw [hact] at hact'
        injection hact' with hv
        exact hv.symm
      subst hacts
      subst hs
      rw [participantsOf_append_row]
      simp only [beq_self_eq_true, if_true, List.map_append, List.count_append]
      have h0 : ((participantsOf s act'.id).map (fun p => p.email)).count em = 0 := by
        refine List.count_eq_zero.mpr ?_
        intro hmem
        obtain ⟨p, hp, hem⟩ := List.mem_map.mp hmem
        have hpmem : p ∈ s.participants := (List.mem_filter.mp hp).1
        have haid : p.activity_id = act'.id := by
          simpa using (List.mem_filter.mp hp).2
        exact not_pair_of_any_false s act'.id em hany p hpmem haid hem
      rw [h0]
      simp

/-- C4 witness: preservation across a successful signup, a successful
unregister and seeding, and the exactly-once count after a fresh signup. -/
theorem unique_pairs_invariant_witness :
    UniquePairs (signup_for_activity seededStore ("Chess Club")
      ("newstudent@mergington.edu")).1
    ∧ UniquePairs (unregister_from_activity seededStore ("Chess Club")
      ("daniel@mergington.edu")).1
    ∧ UniquePairs (seed_initial_data emptyStore)
    ∧ ((participantsOf { seededStore with participants := seededStore.participants ++
          [⟨19, "newstudent@mergington.edu", 1⟩] } chessClub.id).map
        (fun p => p.email)).count ("newstudent@mergington.edu") = 1 := by
  refine ⟨?_, ?_, ?_, ?_⟩
  · exact (unique_pairs_invariant seededStore ("Chess Club")
      ("newstudent@mergington.edu")).1 _ _ (by decide) rfl
  · exact (unique_pairs_invariant seededStore ("Chess Club")
      ("daniel@mergington.edu")).2.1 _ _ (by decide) rfl
  · exact (unique_pairs_invariant emptyStore ("x") ("y")).2.2.1 (by decide) (by decide)
  · exact (unique_pairs_invariant seededStore ("Chess Club")
      ("newstudent@mergington.edu")).2.2.2
      ({ seededStore with participants := seededStore.participants ++
          [⟨19, "newstudent@mergington.edu", 1⟩] })
      ("Signed up " ++ "newstudent@mergington.edu" ++ " for " ++ "Chess Club")
      chessClub (by decide) (by decide)

/-! ## Seeding -/

theorem addParticipant_activities (s : Store) (aid : Nat) (e : String) :
    (addParticipant s aid e).activities = s.activities := rfl

theorem foldl_addParticipant_activities (l : List String) (s : Store) (aid : Nat) :
    (l.foldl (fun t e => addParticipant t aid e) s).activities = s.activities := by
  induction l generalizing s with
  | nil => rfl
  | cons e rest ih => rw [List.foldl_cons, ih, addParticipant_activities]

theorem seedOne_activities (s : Store) (d : SeedActivity) :
    (seedOne s d).activities = s.activities ++
      [⟨nextId (s.activities.map (fun a => a.id)), d.name, d.description, d.schedule,
        d.max_participants⟩] := by
  unfold seedOne
  rw [foldl_addParticipant_activities]

theorem foldl_seedOne_length (items : List SeedActivity) (s : Store) :
    (items.foldl seedOne s).activities.length = s.activities.length + items.length := by
  induction items generalizing s with
  | nil => simp
  | cons d rest ih =>
    rw [List.foldl_cons, ih, seedOne_activities]
    simp only [List.length_append, List.length_cons, List.length_nil]
    omega

theorem seed_when_empty (s : Store) (h : s.activities = []) :
    seed_initial_data s = initialData.foldl seedOne s := by
  simp [seed_initial_data, h]

/-- C6: seeding is a no-op on a non-empty store, inserts exactly the fixed
nine-activity dataset (with its participants) into an empty store, and is
idempotent: a second run never duplicates activities. -/
theorem seeding_idempotent (s : Store) :
    (s.activities ≠ [] → seed_initial_data s = s)
    ∧ (s.activities = [] → (seed_initial_data s).activities.length = 9)
    ∧ (s.activities = [] → s.participants = [] → seed_initial_data s = seededStore)
    ∧ seededStore.activities.length = 9
    ∧ seed_initial_data (seed_initial_data s) = seed_initial_data s := by
  have hlen : s.activities = [] → (seed_initial_data s).activities.length = 9 := by
    intro he
    rw [seed_when_empty s he, foldl_seedOne_length, he]
    rfl
  refine ⟨seed_no_op s, hlen, ?_, rfl, ?_⟩
  · intro h1 h2
    rw [store_eq_empty s h1 h2, seed_emptyStore]
  · by_cases he : s.activities = []
    · apply seed_no_op
      intro hnil
      rw [hnil] at hlen
      exact absurd (hlen he) (by decide)
    · rw [seed_no_op s he]
      exact seed_no_op s he

/-- C6 witness: seeding the seeded store is a no-op and seeding the empty
store yields the fixed dataset. -/
theorem seeding_idempotent_witness :
    seed_initial_data seededStore = seededStore
    ∧ (seed_initial_data emptyStore).activities.length = 9
    ∧ seed_initial_data emptyStore = seededStore :=
  ⟨(seeding_idempotent seededStore).1 (by decide),
   (seeding_idempotent emptyStore).2.1 rfl,
   (seeding_idempotent emptyStore).2.2.1 rfl rfl⟩

/-! ## The activities listing -/

theorem dictInsert_self_mem (d : List (String × ActivityInfo)) (k : String) (v : ActivityInfo) :
    (k, v) ∈ dictInsert d k v := by
  induction d with
  | nil => exact List.mem_singleton.mpr rfl
  | cons x rest ih =>
    obtain ⟨a, b⟩ := x
    by_cases hk : (a == k) = true
    · simp [dictInsert, hk]
    · simp only [dictInsert, hk, if_false]
      exact List.mem_cons_of_mem _ ih

theorem mem_dictInsert (d : List (String × ActivityInfo)) (k' : String) (v' : ActivityInfo)
    (k : String) (v : ActivityInfo) (h : (k, v) ∈ dictInsert d k' v') :
    (k = k' ∧ v = v') ∨ (k, v) ∈ d := by
  induction d with
  | nil =>
    simp only [dictInsert] at h
    exact Or.inl (Prod.mk.injEq .. ▸ List.mem_singleton.mp h)
  | cons x rest ih =>
    obtain ⟨a, b⟩ := x
    by_cases hk : (a == k') = true
    · simp only [dictInsert, hk, if_true] at h
      rcases List.mem_cons.mp h with heq | hmem
      · exact Or.inl (Prod.mk.injEq .. ▸ heq)
      · exact Or.inr (List.mem_cons_of_mem _ hmem)
    · simp only [dictInsert, hk, if_false] at h
      rcases List.mem_cons.mp h with heq | hmem
      · exact Or.inr (heq ▸ List.mem_cons_self _ _)
      · rcases ih hmem with h1 | h2
        · exact Or.inl h1
        · exact Or.inr (List.mem_cons_of_mem _ h2)

theorem dictInsert_mem_of_ne (d : List (String × ActivityInfo)) (k' : String)
    (v' : ActivityInfo) (k : String) (v : ActivityInfo) (h : (k, v) ∈ d) (hne : k ≠ k') :
    (k, v) ∈ dictInsert d k' v' := by
  induction d with
  | nil => exact absurd h (List.not_mem_nil _)
  | cons x rest ih =>
    obtain ⟨a, b⟩ := x
    by_cases hk : (a == k') = true
    · simp only [dictInsert, hk, if_true]
      rcases List.mem_cons.mp h with heq | hmem
      · have hak : a = k' := eq_of_beq hk
        have : k = a := congrArg Prod.fst heq
        exact absurd (this.trans hak) hne
      · exact List.mem_cons_of_mem _ hmem
    · simp only [dictInsert, hk, if_false]
      rcases List.mem_cons.mp h with heq | hmem
      · exact heq ▸ List.mem_cons_self _ _
      · exact List.mem_cons_of_mem _ (ih hmem)

theorem mem_foldl_dictInsert (acts : List Activity) (s : Store)
    (d : List (String × ActivityInfo)) (k : String) (v : ActivityInfo)
    (h : (k, v) ∈ acts.foldl (fun r act => dictInsert r act.name (activityInfo s act)) d) :
    (k, v) ∈ d ∨ ∃ a ∈ acts, a.name = k ∧ v = activityInfo s a := by
  induction acts generalizing d with
  | nil => exact Or.inl h
  | cons a rest ih =>
    rw [List.foldl_cons] at h
    rcases ih _ h with hacc | ⟨a', ha', hname, hval⟩
    · rcases mem_dictInsert _ _ _ _ _ hacc with ⟨hk, hv⟩ | hd
      · exact Or.inr ⟨a, List.mem_cons_self a rest, hk.symm, hv⟩
      · exact Or.inl hd
    · exact Or.inr ⟨a', List.mem_cons_of_mem a ha', hname, hval⟩

theorem exists_key_foldl (acts : List Activity) (s : Store)
    (d : List (String × ActivityInfo)) (k : String)
    (h : (∃ v, (k, v) ∈ d) ∨ ∃ a ∈ acts, a.name = k) :
    ∃ v, (k, v) ∈ acts.foldl (fun r act => dictInsert r act.name (activityInfo s act)) d := by
  induction acts generalizing d with
  | nil =>
    rcases h with h1 | ⟨a, ha, _⟩
    · exact h1
    · exact absurd ha (List.not_mem_nil a)
  | cons a rest ih =>
    rw [List.foldl_cons]
    rcases h with ⟨v, hv⟩ | ⟨a', ha', hname⟩
    · by_cases hk : k = a.name
      · exact ih _ (Or.inl ⟨activityInfo s a, hk ▸ dictInsert_self_mem _ _ _⟩)
      · exact ih _ (Or.inl ⟨v, dictInsert_mem_of_ne _ _ _ _ _ hv hk⟩)
    · rcases List.mem_cons.mp ha' with rfl | hmem
      · exact ih _ (Or.inl ⟨activityInfo s a', hname ▸ dictInsert_self_mem _ _ _⟩)
      · exact ih _ (Or.inr ⟨a', hmem, hname⟩)

/-- C7: `GET /activities` has no failure case: on an empty store it returns
the empty mapping, every entry of the result describes an actual activity row
(description, schedule, max_participants, participant emails), and every
activity name appears as a key. -/
theorem get_activities_contract (s : Store) :
    (s.activities = [] → get_activities s = [])
    ∧ (∀ k v, (k, v) ∈ get_activities s →
        ∃ a ∈ s.activities, a.name = k ∧ v = activityInfo s a)
    ∧ (∀ a ∈ s.activities, ∃ v, (a.name, v) ∈ get_activities s) := by
  refine ⟨?_, ?_, ?_⟩
  · intro h
    simp [get_activities, h]
  · intro k v h
    rcases mem_foldl_dictInsert s.activities s [] k v h with h0 | h1
    · exact absurd h0 (List.not_mem_nil _)
    · exact h1
  · intro a ha
    exact exists_key_foldl s.activities s [] a.name (Or.inr ⟨a, ha, rfl⟩)

/-- C7 witness: the empty store lists nothing; on the seeded store the Chess
Club entry is the seeded row's data and its key is present. -/
theorem get_activities_contract_witness :
    get_activities emptyStore = []
    ∧ (∃ a ∈ seededStore.activities, a.name = "Chess Club"
        ∧ activityInfo seededStore chessClub = activityInfo seededStore a)
    ∧ ∃ v, (chessClub.name, v) ∈ get_activities seededStore := by
  refine ⟨?_, ?_, ?_⟩
  · exact (get_activities_contract emptyStore).1 rfl
  · exact (get_activities_contract seededStore).2.1 ("Chess Club")
      (activityInfo seededStore chessClub) (by decide)
  · exact (get_activities_contract seededStore).2.2 chessClub (by decide)

/-- C9: on the freshly seeded store, signing `test@mergington.edu` up for
Chess Club grows its list from 2 to 3 entries, and the identical second call
fails with 400 "Student is already signed up". -/
theorem chess_club_example :
    ∃ act s1,
      activityNamed (seed_initial_data emptyStore) ("Chess Club") = some act
      ∧ (participantsOf (seed_initial_data emptyStore) act.id).length = 2
      ∧ signup_for_activity (seed_initial_data emptyStore) ("Chess Club")
          ("test@mergington.edu")
        = (s1, Except.ok ("Signed up test@mergington.edu for Chess Club"))
      ∧ (participantsOf s1 act.id).length = 3
      ∧ signup_for_activity s1 ("Chess Club") ("test@mergington.edu")
        = (s1, Except.error ⟨400, "Student is already signed up"⟩) := by
  refine ⟨chessClub,
    { seededStore with participants :=
        seededStore.participants ++ [⟨19, "test@mergington.edu", 1⟩] },
    ?_, ?_, ?_, ?_, ?_⟩ <;> decide

/-! ## Duplicate activity names -/

theorem find?_append_first {α : Type} (p : α → Bool) (pre post : List α) (a : α)
    (hpre : ∀ b ∈ pre, p b = false) (ha : p a = true) :
    (pre ++ a :: post).find? p = some a := by
  induction pre with
  | nil => simpa [List.find?_cons] using List.find?_cons_of_pos post ha
  | cons x xs ih =>
    have hx : ¬p x = true := by
      simp [hpre x (List.mem_cons_self x xs)]
    rw [List.cons_append, List.find?_cons_of_neg _ hx]
    exact ih (fun b hb => hpre b (List.mem_cons_of_mem x hb))

theorem pid_inj_of_unique (l : List Participant)
    (hu : l.Pairwise (fun a b => a.id ≠ b.id)) (p q : Participant)
    (hp : p ∈ l) (hq : q ∈ l) (h : p.id = q.id) : p = q := by
  by_contra hne
  exact List.Pairwise.forall (fun x y hxy => (hxy ∘ Eq.symm)) hu hp hq hne h

theorem mem_keys_dictInsert (d : List (String × ActivityInfo)) (k : String)
    (v : ActivityInfo) (x : String)
    (h : x ∈ (dictInsert d k v).map (fun kv => kv.1)) :
    x ∈ d.map (fun kv => kv.1) ∨ x = k := by
  induction d with
  | nil =>
    simp only [dictInsert, List.map_cons, List.map_nil] at h
    exact Or.inr (List.mem_singleton.mp h)
  | cons y rest ih =>
    obtain ⟨a, b⟩ := y
    by_cases hk : (a == k) = true
    · simp only [dictInsert, hk, if_true, List.map_cons] at h
      rcases List.mem_cons.mp h with rfl | hmem
      · exact Or.inr rfl
      · exact Or.inl (List.mem_cons_of_mem _ hmem)
    · simp only [dictInsert, hk, if_false, List.map_cons] at h
      rcases List.mem_cons.mp h with rfl | hmem
      · exact Or.inl (List.mem_cons_self _ _)
      · rcases ih hmem with h1 | h2
        · exact Or.inl (List.mem_cons_of_mem _ h1)
        · exact Or.inr h2

theorem keys_nodup_dictInsert (d : List (String × ActivityInfo)) (k : String)
    (v : ActivityInfo) (h : (d.map (fun kv => kv.1)).Nodup) :
    ((dictInsert d k v).map (fun kv => kv.1)).Nodup := by
  induction d with
  | nil => simp [dictInsert]
  | cons x rest ih =>
    obtain ⟨a, b⟩ := x
    simp only [List.map_cons, List.nodup_cons] at h
    obtain ⟨hnotin, hrest⟩ := h
    by_cases hk : (a == k) = true
    · have hak : a = k := eq_of_beq hk
      simp only [dictInsert, hk, if_true, List.map_cons, List.nodup_cons]
      exact ⟨hak ▸ hnotin, hrest⟩
    · rw [show dictInsert ((a, b) :: rest) k v = (a, b) :: dictInsert rest k v from by
        simp [dictInsert, hk]]
      simp only [List.map_cons, List.nodup_cons]
      refine ⟨?_, ih hrest⟩
      intro hmem
      rcases mem_keys_dictInsert rest k v a hmem with h1 | h2
      · exact hnotin h1
      · exact absurd (beq_iff_eq.mpr h2) (hk ∘ id)

theorem keys_nodup_foldl (acts : List Activity) (s : Store)
    (d : List (String × ActivityInfo)) (h : (d.map (fun kv => kv.1)).Nodup) :
    (((acts.foldl (fun r act => dictInsert r act.name (activityInfo s act)) d)).map
      (fun kv => kv.1)).Nodup := by
  induction acts generalizing d with
  | nil => exact h
  | cons a rest ih =>
    rw [List.foldl_cons]
    exact ih _ (keys_nodup_dictInsert d a.name (activityInfo s a) h)

theorem mem_foldl_of_not_key (acts : List Activity) (s : Store)
    (d : List (String × ActivityInfo)) (k : String) (v : ActivityInfo)
    (hv : (k, v) ∈ d) (hk : ∀ a ∈ acts, a.name ≠ k) :
    (k, v) ∈ acts.foldl (fun r act => dictInsert r act.name (activityInfo s act)) d := by
  induction acts generalizing d with
  | nil => exact hv
  | cons a rest ih =>
    rw [List.foldl_cons]
    refine ih _ (dictInsert_mem_of_ne _ _ _ _ _ hv ?_)
      (fun b hb => hk b (List.mem_cons_of_mem a hb))
    exact fun he => hk a (List.mem_cons_self a rest) he.symm

/-- C10: activity names are not forced unique; the handlers resolve a name to
the FIRST matching row and touch only that row's participants, while the
listing keeps one entry per name, the LAST row winning. -/
theorem duplicate_names (s : Store) (an em : String) :
    (∀ pre a post, s.activities = pre ++ a :: post → a.name = an →
        (∀ b ∈ pre, b.name ≠ an) →
        activityNamed s an = some a
        ∧ (∀ s' r, signup_for_activity s an em = (s', r) →
            ∀ q, q ∈ s'.participants → q ∉ s.participants → q.activity_id = a.id)
        ∧ (UniqueParticipantIds s →
            ∀ s' r, unregister_from_activity s an em = (s', r) →
            ∀ q, q ∈ s.participants → q ∉ s'.participants → q.activity_id = a.id))
    ∧ ((get_activities s).map (fun kv => kv.1)).Nodup
    ∧ (∀ pre a post, s.activities = pre ++ a :: post →
        (∀ b ∈ post, b.name ≠ a.name) →
        (a.name, activityInfo s a) ∈ get_activities s) := by
  refine ⟨?_, ?_, ?_⟩
  · intro pre a post hdecomp hname hpre
    have hfound : activityNamed s an = some a := by
      unfold activityNamed
      rw [hdecomp]
      refine find?_append_first _ pre post a (fun b hb => ?_) (by simp [hname])
      simp [hpre b hb]
    refine ⟨hfound, ?_, ?_⟩
    · intro s' r h q hq hnq
      rcases signup_result s an em s' r h with ⟨hs, _⟩ | ⟨act, hact, _, _, hs, _⟩
      · rw [hs] at hq
        exact absurd hq hnq
      · have hacta : act = a := by
          rw [hfound] at hact
          injection hact with hv
          exact hv.symm
        subst hacta
        subst hs
        rcases List.mem_append.mp hq with hin | hnew
        · exact absurd hin hnq
        · rw [List.mem_singleton.mp hnew]
    · intro hu s' r h q hq hnq
      rcases unregister_result s an em s' r h with ⟨hs, _⟩ | ⟨act, p, hact, hp, hs, _⟩
      · rw [hs] at hnq
        exact absurd hq hnq
      · have hacta : act = a := by
          rw [hfound] at hact
          injection hact with hv
          exact hv.symm
        subst hacta
        subst hs
        have hpq : q = p := by
          refine pid_inj_of_unique s.participants hu q p hq
            (List.mem_of_find?_eq_some hp) ?_
          by_contra hne
          exact hnq (List.mem_filter.mpr ⟨hq, by simpa using hne⟩)
        have hprop := List.find?_some hp
        simp only [Bool.and_eq_true, beq_iff_eq] at hprop
        rw [hpq]
        exact hprop.1
  · exact keys_nodup_foldl s.activities s [] List.nodup_nil
  · intro pre a post hdecomp hpost
    unfold get_activities
    rw [hdecomp, List.foldl_append, List.foldl_cons]
    exact mem_foldl_of_not_key post s _ a.name (activityInfo s a)
      (dictInsert_self_mem _ _ _) hpost

/-- A store with two activities of the same name, for exercising C10. -/
def dupStore : Store :=
  ⟨[⟨1, "Chess Club", "first", "t1", 5⟩, ⟨2, "Chess Club", "second", "t2", 5⟩],
   [⟨1, "x@mergington.edu", 2⟩]⟩

/-- C10 witness: with two rows named Chess Club, lookup picks the first row,
signup inserts into the first row, the listing keys stay unique and the
listed entry is the second (last) row's data. -/
theorem duplicate_names_witness :
    activityNamed dupStore ("Chess Club") = some ⟨1, "Chess Club", "first", "t1", 5⟩
    ∧ (⟨2, "new@mergington.edu", 1⟩ : Participant).activity_id
        = (⟨1, "Chess Club", "first", "t1", 5⟩ : Activity).id
    ∧ ((get_activities dupStore).map (fun kv => kv.1)).Nodup
    ∧ ("Chess Club", activityInfo dupStore ⟨2, "Chess Club", "second", "t2", 5⟩)
        ∈ get_activities dupStore := by
  refine ⟨?_, ?_, ?_, ?_⟩
  · exact ((duplicate_names dupStore ("Chess Club") ("new@mergington.edu")).1
      [] ⟨1, "Chess Club", "first", "t1", 5⟩ [⟨2, "Chess Club", "second", "t2", 5⟩]
      (by decide) (by decide) (by decide)).1
  · exact ((duplicate_names dupStore ("Chess Club") ("new@mergington.edu")).1
      [] ⟨1, "Chess Club", "first", "t1", 5⟩ [⟨2, "Chess Club", "second", "t2", 5⟩]
      (by decide) (by decide) (by decide)).2.1 _ _ rfl
      ⟨2, "new@mergington.edu", 1⟩ (by decide) (by decide)
  · exact (duplicate_names dupStore ("Chess Club") ("new@mergington.edu")).2.1
  · exact (duplicate_names dupStore ("Chess Club") ("new@mergington.edu")).2.2
      [⟨1, "Chess Club", "first", "t1", 5⟩] ⟨2, "Chess Club", "second", "t2", 5⟩ []
      (by decide) (by decide)

end SchoolApi
